import Mathlib

/-!
# GlobalLocalStorage — verification of the spec against the source

Shallow embedding of the two source files of the repository:

* `src/index.html` — the Storage Core: IndexedDB-backed key-value store
  with per-item ACLs, lazy TTL expiry and `BroadcastChannel` change
  events (`hasPermission`, `dbGet`, `dbSet`, `dbRemove`, `dbClear`,
  `dbKeys`, and the `message` listener).
* `src/lib.mjs` — the Client Proxy: request correlation, local cache,
  core-reachability state machine (`init`, `sendRequest`, `setItem`,
  `getItem`, `removeItem`, `clear`, `keys`).

JS objects are embedded as Lean structures; `null`/`undefined` option
fields as `Option`; the IndexedDB object store (keyPath `key`) as an
association list from keys to items; timestamps (`Date.now()`,
`expiresAt`) as `Nat` milliseconds, with the JS falsiness of the number
`0` made explicit where the source tests a number for truthiness.
Each `async` core operation is embedded as a pure function from the
store to its result together with the final store and the list of
change events posted on the broadcast channel; a thrown JS exception
becomes an `Except.error` carrying the `name`/`message` pair of the
`Error` object, and at the point of a throw the store and the event
list are exactly what the sequential code had produced so far (for
every operation of this source that is: the original store and no
events, since every throw precedes every mutation and every
`postMessage`).
-/

namespace GLS

/-- JS values stored under a key. The core treats stored values as
opaque; a small inductive with `null`, strings and numbers is enough to
express every claim. -/
inductive Val where
  | null
  | str (s : String)
  | num (n : Int)
  deriving DecidableEq, Repr

/-- An item's access-control list: `acl.read` and `acl.write` arrays of
origin strings (the wildcard is the string `"*"`). -/
structure Acl where
  read : List String
  write : List String
  deriving DecidableEq, Repr

/-- A stored record of the `KeyValueStore` object store: `{ key, value,
acl, expiresAt }`, with `expiresAt : Option Nat` for the JS
number-or-`null` field. The `key` field is the keyPath, kept outside as
the association-list key. -/
structure Item where
  value : Val
  acl : Acl
  expiresAt : Option Nat
  deriving DecidableEq, Repr

/-- The IndexedDB object store with keyPath `key`: an association list
from key to item. Reachable stores have pairwise distinct keys. -/
abbrev Store := List (String × Item)

/-- `db.get(STORE_NAME, key)` / `store.get(key)`. -/
def Store.get (s : Store) (k : String) : Option Item :=
  (s.find? (fun p => p.1 == k)).map (·.2)

/-- `store.put(itemToStore)`: upsert keyed on the keyPath. -/
def Store.put (s : Store) (k : String) (it : Item) : Store :=
  if (s.find? (fun p => p.1 == k)).isSome then
    s.map (fun p => if p.1 == k then (k, it) else p)
  else
    s ++ [(k, it)]

/-- `db.delete(STORE_NAME, key)` / `store.delete(key)`. -/
def Store.del (s : Store) (k : String) : Store :=
  s.filter (fun p => !(p.1 == k))

/-- A `{ key, action }` message posted on the
`global-local-storage-updates` broadcast channel. -/
inductive EvAction where
  | set
  | remove
  deriving DecidableEq, Repr

structure ChangeEvent where
  key : String
  action : EvAction
  deriving DecidableEq, Repr

/-- A thrown JS `Error`, as observed by the core's catch block:
its `name` and `message`. -/
structure JsError where
  name : String
  message : String
  deriving DecidableEq, Repr

/-- The `new Error(...)` thrown when a read-permission check fails
(`dbGet`, src/index.html line 54). A plain `Error` has name `"Error"`. -/
def permDeniedRead (origin key : String) : JsError :=
  { name := "Error"
    message := "Origin \x27" ++ origin ++ "\x27 does not have read permission for key \x27"
      ++ key ++ "\x27." }

/-- The `new Error(...)` thrown when a write-permission check fails
(`dbSet` line 73, `dbRemove` line 102). -/
def permDeniedWrite (origin key : String) : JsError :=
  { name := "Error"
    message := "Origin \x27" ++ origin ++ "\x27 does not have write permission for key \x27"
      ++ key ++ "\x27." }

/-- `hasPermission(aclList, origin)` (src/index.html lines 31-34):
`aclList.includes('*') || aclList.includes(origin)`. The
`Array.isArray` guard always passes in this embedding because ACLs are
lists by construction. -/
def hasPermission (aclList : List String) (origin : String) : Bool :=
  aclList.contains "*" || aclList.contains origin

/-- The truthiness test `item.expiresAt && Date.now() > item.expiresAt`
(line 45): `null` and the number `0` are falsy. -/
def isExpired (item : Item) (now : Nat) : Bool :=
  match item.expiresAt with
  | none => false
  | some e => !(e == 0) && decide (e < now)

/-- The `options.acl` object: `{ read?, write? }`, either field may be
absent. -/
structure AclOpt where
  read : Option (List String)
  write : Option (List String)
  deriving DecidableEq, Repr

/-- The `options` argument of `setItem`/`dbSet`: `{ acl?, ttl? }`
(`ttl` in seconds). -/
structure Options where
  acl : Option AclOpt
  ttl : Option Nat
  deriving DecidableEq, Repr

/-- `ttl ? Date.now() + ttl * 1000 : null` (line 83); the number `0` is
falsy. -/
def expiresAtOf (ttl : Option Nat) (now : Nat) : Option Nat :=
  match ttl with
  | none => none
  | some t => if t == 0 then none else some (now + t * 1000)

/-- `dbGet(key, origin)` (src/index.html lines 38-55). Returns the JS
return value (or the thrown error), the store after the call, and the
broadcast events posted during the call. -/
def dbGet (s : Store) (key origin : String) (now : Nat) :
    Except JsError Val × Store × List ChangeEvent :=
  match s.get key with
  | none => (.ok .null, s, [])
  | some item =>
    if isExpired item now then
      (.ok .null, s.del key, [{ key := key, action := .remove }])
    else if hasPermission item.acl.read origin then
      (.ok item.value, s, [])
    else
      (.error (permDeniedRead origin key), s, [])

/-- `dbSet(key, value, options, origin)` (src/index.html lines 57-91).
`newAcl` is computed before the existence check; the caller is pushed
onto `newAcl.write` only in the `else` (no existing item) branch; the
throw for a write-permission failure happens before `store.put` and
before the broadcast. -/
def dbSet (s : Store) (key : String) (value : Val) (options : Option Options)
    (origin : String) (now : Nat) :
    Except JsError Unit × Store × List ChangeEvent :=
  let acl := options.bind Options.acl
  let ttl := options.bind Options.ttl
  let newAcl : Acl :=
    { read := (acl.bind AclOpt.read).getD ["*"]
      write := (acl.bind AclOpt.write).getD [origin] }
  match s.get key with
  | some existingItem =>
    if !hasPermission existingItem.acl.write origin then
      (.error (permDeniedWrite origin key), s, [])
    else
      let itemToStore : Item :=
        { value := value, acl := newAcl, expiresAt := expiresAtOf ttl now }
      (.ok (), s.put key itemToStore, [{ key := key, action := .set }])
  | none =>
    let newAcl2 : Acl :=
      if newAcl.write.contains origin then newAcl
      else { newAcl with write := newAcl.write ++ [origin] }
    let itemToStore : Item :=
      { value := value, acl := newAcl2, expiresAt := expiresAtOf ttl now }
    (.ok (), s.put key itemToStore, [{ key := key, action := .set }])

/-- `dbRemove(key, origin)` (src/index.html lines 93-108): no-op if
absent; throw before delete if the caller lacks write permission. -/
def dbRemove (s : Store) (key origin : String) :
    Except JsError Unit × Store × List ChangeEvent :=
  match s.get key with
  | none => (.ok (), s, [])
  | some existingItem =>
    if !hasPermission existingItem.acl.write origin then
      (.error (permDeniedWrite origin key), s, [])
    else
      (.ok (), s.del key, [{ key := key, action := .remove }])

/-- `dbClear(origin)` (src/index.html lines 110-123): cursor over all
records, deleting each one the caller can write and posting one remove
event per deleted key, in store order. -/
def dbClear (s : Store) (origin : String) : Store × List ChangeEvent :=
  (s.filter (fun p => !hasPermission p.2.acl.write origin),
   (s.filter (fun p => hasPermission p.2.acl.write origin)).map
     (fun p => { key := p.1, action := .remove }))

/-- `dbKeys(origin)` (src/index.html lines 125-134): `getAll`, keep the
keys of the items whose `acl.read` admits the caller. No expiry test
appears in this function. -/
def dbKeys (s : Store) (origin : String) : List String :=
  (s.filter (fun p => hasPermission p.2.acl.read origin)).map (·.1)

/-! ## The core's message listener and the client's response handler -/

/-- The `value` slot of a `{ action: 'response', requestId, value }`
message (src/index.html line 164): `undefined` for `setItem`, `removeItem`
and `clear`, a stored value (or `null`) for `getItem`, an array of keys
for `keys`. -/
inductive RespValue where
  | undef
  | val (v : Val)
  | keyList (ks : List String)
  deriving DecidableEq, Repr

/-- A `{ action: 'response', requestId, value?, error? }` message sent
back to the requesting window (src/index.html lines 164, 168). -/
structure Response where
  requestId : Nat
  value : Option RespValue
  error : Option JsError
  deriving DecidableEq, Repr

/-- The success path of the message listener (src/index.html line 164):
`event.source.postMessage({ action: 'response', requestId, value: responseValue })`. -/
def coreOkResponse (requestId : Nat) (responseValue : RespValue) : Response :=
  { requestId := requestId, value := some responseValue, error := none }

/-- The catch block of the message listener (src/index.html lines
166-169): any exception `e` raised by the dispatched db operation —
including a fault of the underlying IndexedDB layer — is caught and
answered with `{ action: 'response', requestId, error: { name: e.name,
message: e.message } }`, with no `value` field. -/
def coreCatchResponse (requestId : Nat) (e : JsError) : Response :=
  { requestId := requestId, value := none
    error := some { name := e.name, message := e.message } }

/-- The listener's try/catch around one dispatched core operation:
the outcome of the `await`ed db call (its value, or the exception it
threw) becomes exactly one response carrying the request's id. -/
def handleOutcome (requestId : Nat) (outcome : Except JsError RespValue) : Response :=
  match outcome with
  | .ok v => coreOkResponse requestId v
  | .error e => coreCatchResponse requestId e

/-- How the Client Proxy settles a pending promise (src/lib.mjs lines
98-108): rejected with an `Error` rebuilt from `error.name` /
`error.message`, or resolved with `value`. -/
inductive Settlement where
  | resolved (value : Option RespValue)
  | rejected (name message : String)
  deriving DecidableEq, Repr

/-- The client's `message` listener body for responses (src/lib.mjs
lines 96-108): if `requestId` is a pending request's id, settle that
promise (reject on `error`, resolve on `value`) and delete the entry;
otherwise the message is dropped. Returns the new pending-id set and
the settlement performed, tagged with the settled id. -/
def clientHandleResponse (pending : List Nat) (resp : Response) :
    List Nat × Option (Nat × Settlement) :=
  if pending.contains resp.requestId then
    (pending.erase resp.requestId,
     some (resp.requestId,
       match resp.error with
       | some e => .rejected e.name e.message
       | none => .resolved resp.value))
  else
    (pending, none)

/-! ## The Client Proxy (src/lib.mjs) -/

/-- `coreState` (src/lib.mjs line 9). -/
inductive CoreState where
  | uninitialized
  | initializing
  | ready
  | failed
  deriving DecidableEq, Repr

/-- The effect of `init(config)` on `coreState` (src/lib.mjs lines
25-39): in a non-browser environment it warns and sets `failed`;
otherwise, when the state is neither `uninitialized` nor `failed` it
warns and returns without touching it, and in the remaining two states
— `uninitialized` or `failed` — it sets `initializing` and proceeds to
set up the iframe. -/
def initCoreState (browserEnv : Bool) (st : CoreState) : CoreState :=
  if !browserEnv then .failed
  else if st ≠ .uninitialized ∧ st ≠ .failed then st
  else .initializing

/-- The effect of `sendRequest` on `coreState` (src/lib.mjs lines
119-135): it calls `init()` when the state is `uninitialized` and
otherwise leaves the state alone (a `failed` state only rejects the new
promise). -/
def sendRequestCoreState (browserEnv : Bool) (st : CoreState) : CoreState :=
  match st with
  | .uninitialized => initCoreState browserEnv .uninitialized
  | s => s

/-- The public operations of src/lib.mjs. `getItem` carries whether the
key was found in the local cache, because a cache hit returns before
`sendRequest` (lines 160-161). -/
inductive PublicOp where
  | initOp
  | setItemOp
  | getItemOp (cacheHit : Bool)
  | removeItemOp
  | clearOp
  | keysOp
  deriving DecidableEq, Repr

/-- The effect of one public operation on `coreState`: `init` runs
lines 25-39; `setItem`, `removeItem`, `clear` and `keys` go through
`sendRequest`; `getItem` goes through `sendRequest` unless the cache
holds the key. -/
def opCoreState (browserEnv : Bool) (op : PublicOp) (st : CoreState) : CoreState :=
  match op with
  | .initOp => initCoreState browserEnv st
  | .getItemOp cacheHit =>
    if cacheHit then st else sendRequestCoreState browserEnv st
  | _ => sendRequestCoreState browserEnv st

/-- Running a sequence of public operations from a state. -/
def runOps (browserEnv : Bool) (ops : List PublicOp) (st : CoreState) : CoreState :=
  ops.foldl (fun s op => opCoreState browserEnv op s) st

/-! ### The client cache and `getItem` -/

/-- The client cache `cache = new Map()` (src/lib.mjs line 16), mapping
keys to the last value resolved by a `get` response (which may be the
JS `null`). -/
abbrev Cache := List (String × Val)

/-- `cache.has(key)`. -/
def cacheHas (m : Cache) (k : String) : Bool :=
  (m.find? (fun p => p.1 == k)).isSome

/-- `cache.get(key)`. -/
def cacheGet (m : Cache) (k : String) : Option Val :=
  (m.find? (fun p => p.1 == k)).map (·.2)

/-- `cache.set(key, value)`. -/
def cacheSet (m : Cache) (k : String) (v : Val) : Cache :=
  if (m.find? (fun p => p.1 == k)).isSome then
    m.map (fun p => if p.1 == k then (k, v) else p)
  else
    m ++ [(k, v)]

/-- A request message posted to the core window:
`{ action, key?, value?, options?, requestId }`. -/
inductive ReqAction where
  | setItemAct
  | getItemAct
  | removeItemAct
  | clearAct
  | keysAct
  deriving DecidableEq, Repr

structure Request where
  action : ReqAction
  key : Option String
  value : Option Val
  options : Option Options
  requestId : Nat
  deriving DecidableEq, Repr

/-- What the synchronous part of `getItem(key)` does (src/lib.mjs lines
159-169): a cache hit resolves immediately with the cached value, a
miss allocates the next request id and issues a `getItem` request. -/
inductive GetItemStep where
  | cachedHit (v : Val)
  | requested (msg : Request)
  deriving DecidableEq, Repr

/-- `getItem(key)` up to the point where it either resolves from cache
or hands `{ action: 'getItem', key, requestId }` to `sendRequest`:
returns the step taken, the cache (untouched here) and the value of
`requestIdCounter` after the call. -/
def getItemStart (cache : Cache) (requestIdCounter : Nat) (key : String) :
    GetItemStep × Cache × Nat :=
  if cacheHas cache key then
    (.cachedHit ((cacheGet cache key).getD .null), cache, requestIdCounter)
  else
    (.requested
      { action := .getItemAct, key := some key, value := none, options := none
        requestId := requestIdCounter },
     cache, requestIdCounter + 1)

/-- The `.then(value => { cache.set(key, value); return value })`
continuation of `getItem` (src/lib.mjs lines 165-168), run when the
`get` request resolves: the returned value — `null` included — is
written to the cache. -/
def getItemOnResolve (cache : Cache) (key : String) (value : Val) : Cache :=
  cacheSet cache key value

/-! ## Association-list lemmas

`Store.get`/`Store.put`/`Store.del` and `cacheGet`/`cacheSet` share the
same keyed-upsert shape, so the facts about them are proved once over
`List (String × α)`. -/

section AssocLemmas

variable {α : Type}

/-- A key deleted by the keyed filter is no longer found. -/
theorem assoc_find_del (m : List (String × α)) (k : String) :
    (m.filter (fun p => !(p.1 == k))).find? (fun p => p.1 == k) = none := by
  induction m with
  | nil => rfl
  | cons hd tl ih =>
    by_cases h : hd.1 = k
    · rw [List.filter_cons_of_neg (by simp [h])]
      exact ih
    · rw [List.filter_cons_of_pos (by simp [h]), List.find?_cons_of_neg _ (by simp [h])]
      exact ih

/-- After a keyed upsert, looking the key up finds the new value. -/
theorem assoc_find_set (m : List (String × α)) (k : String) (v : α) :
    ((if (m.find? (fun p => p.1 == k)).isSome then
        m.map (fun p => if p.1 == k then (k, v) else p)
      else m ++ [(k, v)]).find? (fun p => p.1 == k)).map Prod.snd = some v := by
  induction m with
  | nil => simp
  | cons hd tl ih =>
    by_cases h : hd.1 = k
    · have h1 : ((hd :: tl).find? (fun p => p.1 == k)).isSome = true := by
        rw [List.find?_cons_of_pos _ (by simp [h])]
        rfl
      rw [if_pos h1, List.map_cons]
      have h2 : (if (hd.1 == k) = true then (k, v) else hd) = (k, v) := by simp [h]
      rw [h2, List.find?_cons_of_pos _ (by simp)]
      rfl
    · have hkf : ((hd :: tl).find? (fun p => p.1 == k)) = tl.find? (fun p => p.1 == k) :=
        List.find?_cons_of_neg _ (by simp [h])
      have h2 : (if (hd.1 == k) = true then (k, v) else hd) = hd := by simp [h]
      by_cases hf : (tl.find? (fun p => p.1 == k)).isSome
      · rw [if_pos (by rw [hkf]; exact hf), List.map_cons, h2,
          List.find?_cons_of_neg _ (by simp [h])]
        rw [if_pos hf] at ih
        exact ih
      · rw [if_neg (by rw [hkf]; exact hf), List.cons_append,
          List.find?_cons_of_neg _ (by simp [h])]
        rw [if_neg hf] at ih
        exact ih

/-- A found binding is a member of the list with the looked-up key. -/
theorem assoc_mem_of_find (m : List (String × α)) (k : String) (v : α)
    (h : (m.find? (fun p => p.1 == k)).map Prod.snd = some v) : (k, v) ∈ m := by
  induction m with
  | nil => simp at h
  | cons hd tl ih =>
    rcases hd with ⟨a, b⟩
    by_cases hk : a = k
    · subst hk
      rw [List.find?_cons_of_pos _ (by simp)] at h
      simp at h
      subst h
      exact List.mem_cons_self _ _
    · rw [List.find?_cons_of_neg _ (by simp [hk])] at h
      exact List.mem_cons_of_mem _ (ih h)

/-- With pairwise-distinct keys, looking a key up in a filtered list
finds the original binding exactly when the filter keeps it. -/
theorem assoc_find_filter (m : List (String × α)) (q : String × α → Bool) (k : String)
    (h : (m.map Prod.fst).Nodup) :
    ((m.filter q).find? (fun p => p.1 == k)).map Prod.snd =
      ((m.find? (fun p => p.1 == k)).map Prod.snd).bind
        (fun v => if q (k, v) then some v else none) := by
  induction m with
  | nil => simp
  | cons hd tl ih =>
    rcases hd with ⟨a, b⟩
    rw [List.map_cons, List.nodup_cons] at h
    obtain ⟨hnm, hnd⟩ := h
    by_cases hk : a = k
    · subst hk
      rw [List.find?_cons_of_pos _ (by simp)]
      by_cases hq : q (a, b)
      · rw [List.filter_cons_of_pos hq, List.find?_cons_of_pos _ (by simp)]
        simp [hq]
      · rw [List.filter_cons_of_neg (by simpa using hq)]
        have hnone : (tl.filter q).find? (fun p => p.1 == a) = none := by
          apply List.find?_eq_none.mpr
          intro p hp hbeq
          have hp1 : p.1 = a := by simpa using hbeq
          exact hnm (List.mem_map.mpr ⟨p, (List.mem_filter.mp hp).1, hp1⟩)
        rw [hnone]
        simp [hq]
    · rw [List.find?_cons_of_neg _ (by simp [hk])]
      by_cases hq : q (a, b)
      · rw [List.filter_cons_of_pos hq, List.find?_cons_of_neg _ (by simp [hk])]
        exact ih hnd
      · rw [List.filter_cons_of_neg (by simpa using hq)]
        exact ih hnd

/-- A key absent from a list's key column produces no remove event for
that key when the list is filtered and mapped to events. -/
theorem assoc_count_zero_of_not_mem (tl : List (String × α)) (q : String × α → Bool)
    (a : String) (hnm : a ∉ tl.map Prod.fst) :
    ((tl.filter q).map (fun p => ChangeEvent.mk p.1 EvAction.remove)).count
      (ChangeEvent.mk a EvAction.remove) = 0 := by
  apply List.count_eq_zero.mpr
  intro hmem
  rcases List.mem_map.mp hmem with ⟨p, hp, hpe⟩
  have hp1 : p.1 = a := congrArg ChangeEvent.key hpe
  exact hnm (List.mem_map.mpr ⟨p, (List.mem_filter.mp hp).1, hp1⟩)

/-- With pairwise-distinct keys, the remove events produced by
filtering and mapping contain a given key once when its binding passes
the filter and zero times otherwise. -/
theorem assoc_count_filter_map (m : List (String × α)) (q : String × α → Bool) (k : String)
    (h : (m.map Prod.fst).Nodup) :
    ((m.filter q).map (fun p => ChangeEvent.mk p.1 EvAction.remove)).count
        (ChangeEvent.mk k EvAction.remove) =
      match (m.find? (fun p => p.1 == k)).map Prod.snd with
      | some v => if q (k, v) then 1 else 0
      | none => 0 := by
  induction m with
  | nil => simp
  | cons hd tl ih =>
    rcases hd with ⟨a, b⟩
    rw [List.map_cons, List.nodup_cons] at h
    obtain ⟨hnm, hnd⟩ := h
    by_cases hk : a = k
    · subst hk
      rw [List.find?_cons_of_pos _ (by simp)]
      have hz := assoc_count_zero_of_not_mem tl q a hnm
      by_cases hq : q (a, b)
      · rw [List.filter_cons_of_pos hq, List.map_cons]
        simp [List.count_cons, hz, hq]
      · rw [List.filter_cons_of_neg (by simpa using hq)]
        simp [hz, hq]
    · rw [List.find?_cons_of_neg _ (by simp [hk])]
      by_cases hq : q (a, b)
      · rw [List.filter_cons_of_pos hq, List.map_cons]
        have hne : (ChangeEvent.mk k EvAction.remove) ≠ (ChangeEvent.mk a EvAction.remove) := by
          intro he
          exact hk (congrArg ChangeEvent.key he).symm
        rw [List.count_cons_of_ne hne]
        exact ih hnd
      · rw [List.filter_cons_of_neg (by simpa using hq)]
        exact ih hnd

end AssocLemmas

/-- `Store.get` after `Store.del` of the same key: gone. -/
theorem Store.get_del_self (s : Store) (k : String) : (s.del k).get k = none := by
  unfold Store.get Store.del
  rw [assoc_find_del]
  rfl

/-- `Store.get` after `Store.put` of the same key: the new item. -/
theorem Store.get_put_self (s : Store) (k : String) (it : Item) :
    (s.put k it).get k = some it := by
  unfold Store.get Store.put
  exact assoc_find_set s k it

/-- A binding returned by `Store.get` is in the store. -/
theorem Store.mem_of_get_eq_some {s : Store} {k : String} {it : Item}
    (h : s.get k = some it) : (k, it) ∈ s :=
  assoc_mem_of_find s k it h

/-- `cacheGet` after `cacheSet` of the same key: the new value. -/
theorem cacheGet_cacheSet_self (m : Cache) (k : String) (v : Val) :
    cacheGet (cacheSet m k v) k = some v := by
  unfold cacheGet cacheSet
  exact assoc_find_set m k v

/-- Every expiry timestamp the core ever persists is positive: `dbSet`
computes `expiresAt` only through `expiresAtOf`, which yields `none` or
`now + ttl * 1000` with `ttl ≥ 1`. A stored `expiresAt = some e` with
`0 < e` therefore covers every item the program can create. -/
theorem expiresAtOf_pos (ttl : Option Nat) (now : Nat) (e : Nat)
    (h : expiresAtOf ttl now = some e) : 0 < e := by
  unfold expiresAtOf at h
  cases ttl with
  | none => simp at h
  | some t =>
    by_cases ht : t = 0
    · simp [ht] at h
    · simp [ht] at h
      omega

/-! ## Claims -/

/-- C1. For every existing item with key `k` and every tenant `t2`
lacking write permission on the item's `acl.write`, `set(k, value,
options, t2)` fails with the write-permission error, the store is
returned exactly as it was (so the item under `k` keeps its value, acl
and expiry), and the list of broadcast `ChangeEvent`s is empty. -/
theorem c1_set_permission_denied_preserves_store (s : Store) (k : String) (item : Item)
    (v : Val) (opts : Option Options) (t2 : String) (now : Nat)
    (hget : s.get k = some item) (hperm : hasPermission item.acl.write t2 = false) :
    dbSet s k v opts t2 now = (.error (permDeniedWrite t2 k), s, []) := by
  unfold dbSet
  rw [hget]
  simp [hperm]

/-- Witness for C1 at a concrete store: `"https://b"` cannot overwrite
an item whose `acl.write` is `["https://a"]`. -/
theorem c1_witness :
    dbSet [("k", { value := Val.num 1, acl := { read := ["*"], write := ["https://a"] },
                   expiresAt := none })] "k" (Val.num 2) none "https://b" 5 =
      (.error (permDeniedWrite "https://b" "k"),
       [("k", { value := Val.num 1, acl := { read := ["*"], write := ["https://a"] },
                expiresAt := none })], []) :=
  c1_set_permission_denied_preserves_store
    [("k", { value := Val.num 1, acl := { read := ["*"], write := ["https://a"] },
             expiresAt := none })] "k"
    { value := Val.num 1, acl := { read := ["*"], write := ["https://a"] }, expiresAt := none }
    (Val.num 2) none "https://b" 5 (by decide) (by decide)

/-- C2. For every stored item whose `expiresAt` is set and in the past,
`get(key, tenant)` deletes the item, posts exactly one
`ChangeEvent{key, remove}`, and returns `null`; the statement holds for
every tenant with no read-permission hypothesis, because the expiry
branch of `dbGet` precedes the permission check. The hypothesis
`0 < e` is justified by `expiresAtOf_pos`: the code never persists a
zero expiry timestamp (the JS guard `item.expiresAt &&` would treat the
number `0` as `null`). -/
theorem c2_expired_get_deletes_and_broadcasts (s : Store) (k t : String) (item : Item)
    (e now : Nat) (hget : s.get k = some item) (hexp : item.expiresAt = some e)
    (hpos : 0 < e) (hpast : e < now) :
    dbGet s k t now = (.ok .null, s.del k, [{ key := k, action := .remove }]) ∧
    (s.del k).get k = none := by
  have hexpired : isExpired item now = true := by
    unfold isExpired
    rw [hexp]
    simp [Nat.pos_iff_ne_zero.mp hpos, hpast]
  refine ⟨?_, Store.get_del_self s k⟩
  unfold dbGet
  rw [hget]
  simp [hexpired]

/-- Witness for C2: an item expired at 1000 read at 2000 by a tenant
that is not even in `acl.read` still gets `null` plus the removal, not
a permission error. -/
theorem c2_witness :
    dbGet [("k", { value := Val.num 7, acl := { read := ["https://a"], write := ["https://a"] },
                   expiresAt := some 1000 })] "k" "https://b" 2000 =
      (.ok .null,
       Store.del [("k", { value := Val.num 7,
                          acl := { read := ["https://a"], write := ["https://a"] },
                          expiresAt := some 1000 })] "k",
       [{ key := "k", action := .remove }]) ∧
    (Store.del [("k", { value := Val.num 7,
                        acl := { read := ["https://a"], write := ["https://a"] },
                        expiresAt := some 1000 })] "k").get "k" = none :=
  c2_expired_get_deletes_and_broadcasts
    [("k", { value := Val.num 7, acl := { read := ["https://a"], write := ["https://a"] },
             expiresAt := some 1000 })] "k" "https://b"
    { value := Val.num 7, acl := { read := ["https://a"], write := ["https://a"] },
      expiresAt := some 1000 }
    1000 2000 (by decide) rfl (by decide) (by decide)

/-- C3. Creating an item (no existing item under the key) stores
`acl.write = options.acl?.write ?? [tenant]` with the tenant appended
when missing, `acl.read = options.acl?.read ?? ["*"]`, and
`expiresAt = options.ttl ? now + ttl * 1000 : null`; in particular the
tenant always ends up in the stored write list, and a missing or zero
TTL yields a never-expiring item. -/
theorem c3_create_item_defaults (s : Store) (k : String) (v : Val) (opts : Option Options)
    (origin : String) (now : Nat) (hget : s.get k = none) :
    dbSet s k v opts origin now =
      (.ok (),
       s.put k
         { value := v
           acl :=
             { read := ((opts.bind Options.acl).bind AclOpt.read).getD ["*"]
               write :=
                 if (((opts.bind Options.acl).bind AclOpt.write).getD [origin]).contains origin
                 then ((opts.bind Options.acl).bind AclOpt.write).getD [origin]
                 else (((opts.bind Options.acl).bind AclOpt.write).getD [origin]) ++ [origin] }
           expiresAt := expiresAtOf (opts.bind Options.ttl) now },
       [{ key := k, action := .set }]) ∧
    origin ∈
      (if (((opts.bind Options.acl).bind AclOpt.write).getD [origin]).contains origin
       then ((opts.bind Options.acl).bind AclOpt.write).getD [origin]
       else (((opts.bind Options.acl).bind AclOpt.write).getD [origin]) ++ [origin]) ∧
    (opts.bind Options.ttl = none → expiresAtOf (opts.bind Options.ttl) now = none) ∧
    (opts.bind Options.ttl = some 0 → expiresAtOf (opts.bind Options.ttl) now = none) ∧
    (∀ ttl, opts.bind Options.ttl = some ttl → 0 < ttl →
      expiresAtOf (opts.bind Options.ttl) now = some (now + ttl * 1000)) := by
  refine ⟨?_, ?_, ?_, ?_, ?_⟩
  · unfold dbSet
    rw [hget]
    by_cases hc : origin ∈ ((opts.bind Options.acl).bind AclOpt.write).getD [origin]
    · simp [hc]
    · simp [hc]
  · by_cases hc : (((opts.bind Options.acl).bind AclOpt.write).getD [origin]).contains origin
    · rw [if_pos hc]
      simpa using hc
    · rw [if_neg hc]
      exact List.mem_append_right _ (List.mem_singleton.mpr rfl)
  · intro h
    rw [h]
    rfl
  · intro h
    rw [h]
    rfl
  · intro ttl h hpos
    rw [h]
    unfold expiresAtOf
    simp [Nat.pos_iff_ne_zero.mp hpos]

/-- Witness for C3: creating `"k"` with a caller-supplied write list
not containing the caller, and `ttl = 3` at `now = 100`: the caller is
appended to the write list and the item expires at 3100. -/
theorem c3_witness :
    dbSet ([] : Store) "k" (Val.num 1)
        (some { acl := some { read := none, write := some ["https://c"] }, ttl := some 3 })
        "https://a" 100 =
      (.ok (), [("k", { value := Val.num 1,
                        acl := { read := ["*"], write := ["https://c", "https://a"] },
                        expiresAt := some 3100 })],
       [{ key := "k", action := .set }]) := by
  have h := c3_create_item_defaults [] "k" (Val.num 1)
    (some { acl := some { read := none, write := some ["https://c"] }, ttl := some 3 })
    "https://a" 100 rfl
  exact h.1.trans (by rfl)

/-- C5. Overwriting an existing item as a write-authorized tenant
replaces the stored ACL wholesale with `{ read: options.acl?.read ??
["*"], write: options.acl?.write ?? [tenant] }`: omitting `options.acl`
resets `read` to the wildcard and `write` to just the caller, and a
caller-supplied write list is stored verbatim with no force-add, so the
caller can remove its own write permission. -/
theorem c5_overwrite_replaces_acl_wholesale (s : Store) (k : String) (v : Val)
    (opts : Option Options) (origin : String) (now : Nat) (item : Item)
    (hget : s.get k = some item) (hperm : hasPermission item.acl.write origin = true) :
    dbSet s k v opts origin now =
      (.ok (),
       s.put k
         { value := v
           acl :=
             { read := ((opts.bind Options.acl).bind AclOpt.read).getD ["*"]
               write := ((opts.bind Options.acl).bind AclOpt.write).getD [origin] }
           expiresAt := expiresAtOf (opts.bind Options.ttl) now },
       [{ key := k, action := .set }]) ∧
    (opts.bind Options.acl = none →
      ((dbSet s k v opts origin now).2.1.get k).map Item.acl =
        some { read := ["*"], write := [origin] }) ∧
    (∀ ws, (opts.bind Options.acl).bind AclOpt.write = some ws →
      ((dbSet s k v opts origin now).2.1.get k).map (fun it => it.acl.write) = some ws) := by
  have hmain : dbSet s k v opts origin now =
      (.ok (),
       s.put k
         { value := v
           acl :=
             { read := ((opts.bind Options.acl).bind AclOpt.read).getD ["*"]
               write := ((opts.bind Options.acl).bind AclOpt.write).getD [origin] }
           expiresAt := expiresAtOf (opts.bind Options.ttl) now },
       [{ key := k, action := .set }]) := by
    unfold dbSet
    rw [hget]
    simp [hperm]
  refine ⟨hmain, ?_, ?_⟩
  · intro hnone
    rw [hmain]
    simp only [hnone]
    rw [Store.get_put_self]
    rfl
  · intro ws hws
    rw [hmain]
    simp only []
    rw [Store.get_put_self]
    simp [hws]

/-- Witness for C5: tenant `"https://a"` overwrites its own item with
`acl.write = ["https://b"]` and thereby loses write permission — the
stored write list is exactly `["https://b"]`. -/
theorem c5_witness :
    dbSet [("k", { value := Val.num 1, acl := { read := ["*"], write := ["https://a"] },
                   expiresAt := none })] "k" (Val.num 2)
        (some { acl := some { read := none, write := some ["https://b"] }, ttl := none })
        "https://a" 5 =
      (.ok (),
       Store.put [("k", { value := Val.num 1, acl := { read := ["*"], write := ["https://a"] },
                          expiresAt := none })] "k"
         { value := Val.num 2, acl := { read := ["*"], write := ["https://b"] },
           expiresAt := none },
       [{ key := "k", action := .set }]) ∧
    ((dbSet [("k", { value := Val.num 1, acl := { read := ["*"], write := ["https://a"] },
                     expiresAt := none })] "k" (Val.num 2)
        (some { acl := some { read := none, write := some ["https://b"] }, ttl := none })
        "https://a" 5).2.1.get "k").map (fun it => it.acl.write) = some ["https://b"] := by
  have h := c5_overwrite_replaces_acl_wholesale
    [("k", { value := Val.num 1, acl := { read := ["*"], write := ["https://a"] },
             expiresAt := none })] "k" (Val.num 2)
    (some { acl := some { read := none, write := some ["https://b"] }, ttl := none })
    "https://a" 5
    { value := Val.num 1, acl := { read := ["*"], write := ["https://a"] }, expiresAt := none }
    (by decide) (by decide)
  exact ⟨h.1, h.2.2 ["https://b"] rfl⟩

/-- C9. `remove(k, tenant)` on an absent key succeeds, leaves the store
exactly as it was and posts no event; and whenever a remove succeeds, a
second remove of the same key by the same tenant succeeds with the same
store and no event — remove is idempotent. -/
theorem c9_remove_absent_noop_idempotent (s : Store) (k t : String) :
    (s.get k = none → dbRemove s k t = (.ok (), s, [])) ∧
    (∀ s2 evs, dbRemove s k t = (.ok (), s2, evs) → dbRemove s2 k t = (.ok (), s2, [])) := by
  constructor
  · intro h
    unfold dbRemove
    rw [h]
  · intro s2 evs h
    unfold dbRemove at h ⊢
    cases hget : s.get k with
    | none =>
      rw [hget] at h
      have hs : s = s2 := congrArg (fun p => p.2.1) h
      subst hs
      rw [hget]
    | some item =>
      rw [hget] at h
      by_cases hperm : hasPermission item.acl.write t
      · simp only [hperm, Bool.not_true, Bool.false_eq_true, if_false] at h
        have hs : s.del k = s2 := congrArg (fun p => p.2.1) h
        subst hs
        rw [Store.get_del_self]
      · simp only [hperm, Bool.not_false] at h
        exact absurd (congrArg (fun p => p.1) h) (by simp)

/-- Witness for C9: removing `"k"` from the empty store is a no-op, and
after a successful remove of a present key the second remove is a
no-op. -/
theorem c9_witness :
    dbRemove ([] : Store) "k" "t" = (.ok (), [], []) ∧
    dbRemove (Store.del [("k", { value := Val.num 1,
                                 acl := { read := ["*"], write := ["t"] },
                                 expiresAt := none })] "k") "k" "t" =
      (.ok (), Store.del [("k", { value := Val.num 1,
                                  acl := { read := ["*"], write := ["t"] },
                                  expiresAt := none })] "k", []) :=
  ⟨(c9_remove_absent_noop_idempotent [] "k" "t").1 rfl,
   (c9_remove_absent_noop_idempotent
      [("k", { value := Val.num 1, acl := { read := ["*"], write := ["t"] },
               expiresAt := none })] "k" "t").2
     (Store.del [("k", { value := Val.num 1, acl := { read := ["*"], write := ["t"] },
                         expiresAt := none })] "k")
     [{ key := "k", action := .remove }] (by rfl)⟩

/-- C4. `clear(t)` deletes exactly the items on whose `acl.write` `t`
has permission: each such key is gone from the resulting store and gets
exactly one `ChangeEvent{key, remove}`; every item `t` cannot write
survives with its exact value, acl and expiry and gets no event; absent
keys get no event. The keyPath of the object store makes keys pairwise
distinct, hence the `Nodup` hypothesis. -/
theorem c4_clear_scoped_to_writable (s : Store) (t : String)
    (hnd : (s.map Prod.fst).Nodup) :
    (∀ k item, s.get k = some item → hasPermission item.acl.write t = true →
       (dbClear s t).1.get k = none ∧
       (dbClear s t).2.count { key := k, action := .remove } = 1) ∧
    (∀ k item, s.get k = some item → hasPermission item.acl.write t = false →
       (dbClear s t).1.get k = some item ∧
       (dbClear s t).2.count { key := k, action := .remove } = 0) ∧
    (∀ k, s.get k = none → (dbClear s t).2.count { key := k, action := .remove } = 0) := by
  refine ⟨?_, ?_, ?_⟩
  · intro k item hget hw
    have hg := assoc_find_filter s (fun p => !hasPermission p.2.acl.write t) k hnd
    have hc := assoc_count_filter_map s (fun p => hasPermission p.2.acl.write t) k hnd
    unfold Store.get at hget
    constructor
    · unfold dbClear Store.get
      rw [hg, hget]
      simp [hw]
    · unfold dbClear
      rw [hc, hget]
      simp [hw]
  · intro k item hget hw
    have hg := assoc_find_filter s (fun p => !hasPermission p.2.acl.write t) k hnd
    have hc := assoc_count_filter_map s (fun p => hasPermission p.2.acl.write t) k hnd
    unfold Store.get at hget
    constructor
    · unfold dbClear Store.get
      rw [hg, hget]
      simp [hw]
    · unfold dbClear
      rw [hc, hget]
      simp [hw]
  · intro k hget
    have hc := assoc_count_filter_map s (fun p => hasPermission p.2.acl.write t) k hnd
    unfold Store.get at hget
    unfold dbClear
    rw [hc, hget]

/-- Witness for C4 at a two-item store: `"t"`-writable `"a"` is deleted
with one remove event, `"u"`-owned `"b"` is untouched with no event,
and the absent key `"c"` gets no event. -/
theorem c4_witness :
    ((dbClear [("a", { value := Val.num 1, acl := { read := ["*"], write := ["t"] },
                       expiresAt := none }),
               ("b", { value := Val.num 2, acl := { read := ["*"], write := ["u"] },
                       expiresAt := none })] "t").1.get "a" = none ∧
     (dbClear [("a", { value := Val.num 1, acl := { read := ["*"], write := ["t"] },
                       expiresAt := none }),
               ("b", { value := Val.num 2, acl := { read := ["*"], write := ["u"] },
                       expiresAt := none })] "t").2.count
       { key := "a", action := .remove } = 1) ∧
    ((dbClear [("a", { value := Val.num 1, acl := { read := ["*"], write := ["t"] },
                       expiresAt := none }),
               ("b", { value := Val.num 2, acl := { read := ["*"], write := ["u"] },
                       expiresAt := none })] "t").1.get "b" =
       some { value := Val.num 2, acl := { read := ["*"], write := ["u"] },
              expiresAt := none } ∧
     (dbClear [("a", { value := Val.num 1, acl := { read := ["*"], write := ["t"] },
                       expiresAt := none }),
               ("b", { value := Val.num 2, acl := { read := ["*"], write := ["u"] },
                       expiresAt := none })] "t").2.count
       { key := "b", action := .remove } = 0) ∧
    (dbClear [("a", { value := Val.num 1, acl := { read := ["*"], write := ["t"] },
                      expiresAt := none }),
              ("b", { value := Val.num 2, acl := { read := ["*"], write := ["u"] },
                      expiresAt := none })] "t").2.count
      { key := "c", action := .remove } = 0 := by
  have h := c4_clear_scoped_to_writable
    [("a", { value := Val.num 1, acl := { read := ["*"], write := ["t"] },
             expiresAt := none }),
     ("b", { value := Val.num 2, acl := { read := ["*"], write := ["u"] },
             expiresAt := none })] "t" (by decide)
  exact ⟨h.1 "a" { value := Val.num 1, acl := { read := ["*"], write := ["t"] },
                   expiresAt := none } rfl rfl,
         h.2.1 "b" { value := Val.num 2, acl := { read := ["*"], write := ["u"] },
                     expiresAt := none } rfl rfl,
         h.2.2 "c" rfl⟩

/-- C6 counterexample: an item under `"session"` whose `expiresAt =
1000` has passed (`now = 2000`), read-permitted for the calling tenant,
is still returned by `keys()` — the claim says it must not be listed,
but `dbKeys` never consults `expiresAt`. -/
theorem c6_counterexample :
    ({ value := Val.num 3, acl := { read := ["*"], write := ["https://a"] },
       expiresAt := some 1000 } : Item).expiresAt = some 1000 ∧
    1000 < 2000 ∧
    hasPermission ({ read := ["*"], write := ["https://a"] } : Acl).read "https://a" = true ∧
    dbKeys [("session", { value := Val.num 3, acl := { read := ["*"], write := ["https://a"] },
                          expiresAt := some 1000 })] "https://a" = ["session"] :=
  ⟨rfl, by decide, rfl, rfl⟩

/-- C6 amended: after an item's `expiresAt` has passed, `keys()` called
by a tenant with read permission on the item still lists its key —
`dbKeys` filters only on `acl.read` and performs neither expiry
filtering nor lazy eviction, so expired items stay listed until some
other access deletes them. -/
theorem c6_keys_list_readable_regardless_of_expiry (s : Store) (k t : String) (item : Item)
    (hget : s.get k = some item) (hread : hasPermission item.acl.read t = true) :
    k ∈ dbKeys s t := by
  have hmem : (k, item) ∈ s := Store.mem_of_get_eq_some hget
  unfold dbKeys
  exact List.mem_map.mpr ⟨(k, item), List.mem_filter.mpr ⟨hmem, hread⟩, rfl⟩

/-- Witness for the amended C6: the expired `"session"` item is listed. -/
theorem c6_witness :
    "session" ∈ dbKeys [("session", { value := Val.num 3,
                                      acl := { read := ["*"], write := ["https://a"] },
                                      expiresAt := some 1000 })] "https://a" :=
  c6_keys_list_readable_regardless_of_expiry
    [("session", { value := Val.num 3, acl := { read := ["*"], write := ["https://a"] },
                   expiresAt := some 1000 })] "session" "https://a"
    { value := Val.num 3, acl := { read := ["*"], write := ["https://a"] },
      expiresAt := some 1000 } rfl rfl

/-- C7 counterexample: a Durable Store fault named
`"QuotaExceededError"` is forwarded under its own name — the error
field of the response does not carry the name `"StorageBackendError"`
(that string occurs nowhere in the source). -/
theorem c7_counterexample :
    (coreCatchResponse 7 { name := "QuotaExceededError",
                           message := "disk quota exceeded" }).error.map JsError.name =
      some "QuotaExceededError" ∧
    "QuotaExceededError" ≠ "StorageBackendError" :=
  ⟨rfl, by decide⟩

/-- C7 amended: for every request whose core-side operation raises a
fault `e`, the listener catches it and answers with a Response carrying
the same `requestId`, no `value`, and `error = { name: e.name, message:
e.message }` — the fault is forwarded under its own name and message
rather than wrapped as `StorageBackendError` — and the Client Proxy
rejects exactly the pending call with that id. -/
theorem c7_fault_response_preserves_id (requestId : Nat) (e : JsError) (pending : List Nat)
    (hp : pending.contains requestId = true) :
    handleOutcome requestId (.error e) =
      { requestId := requestId, value := none,
        error := some { name := e.name, message := e.message } } ∧
    clientHandleResponse pending (handleOutcome requestId (.error e)) =
      (pending.erase requestId, some (requestId, .rejected e.name e.message)) := by
  constructor
  · rfl
  · have hmem : requestId ∈ pending := by simpa using hp
    unfold clientHandleResponse handleOutcome coreCatchResponse
    simp [hmem]

/-- Witness for the amended C7: request 7 pending, quota fault on the
core side; the response keeps id 7 and only that call is rejected. -/
theorem c7_witness :
    handleOutcome 7 (.error { name := "QuotaExceededError",
                              message := "disk quota exceeded" }) =
      { requestId := 7, value := none,
        error := some { name := "QuotaExceededError", message := "disk quota exceeded" } } ∧
    clientHandleResponse [7]
        (handleOutcome 7 (.error { name := "QuotaExceededError",
                                   message := "disk quota exceeded" })) =
      ([], some (7, .rejected "QuotaExceededError" "disk quota exceeded")) :=
  c7_fault_response_preserves_id 7
    { name := "QuotaExceededError", message := "disk quota exceeded" } [7] (by decide)

/-- C8 counterexample: `init()` is a public operation, and called in the
`failed` state (browser environment) it moves the state to
`initializing` — the guard at src/lib.mjs line 32 explicitly lets
`failed` through, so `failed` is not terminal. -/
theorem c8_counterexample :
    opCoreState true PublicOp.initOp CoreState.failed = CoreState.initializing ∧
    CoreState.initializing ≠ CoreState.failed :=
  ⟨by decide, by decide⟩

/-- C8 amended: once `coreState` is `failed`, no sequence of
request-issuing operations (`setItem`, `getItem` — cache hit or miss —,
`removeItem`, `clear`, `keys`) ever leaves `failed`; but a public
`init()` call in the `failed` state transitions to `initializing`, so a
fresh instance is not required to retry. -/
theorem c8_failed_absorbing_except_init (ops : List PublicOp) (browserEnv : Bool)
    (h : PublicOp.initOp ∉ ops) :
    runOps browserEnv ops CoreState.failed = CoreState.failed ∧
    opCoreState true PublicOp.initOp CoreState.failed = CoreState.initializing := by
  refine ⟨?_, by decide⟩
  revert h
  induction ops with
  | nil => intro _; rfl
  | cons op rest ih =>
    intro h
    have hop : op ≠ PublicOp.initOp := by
      intro he
      exact h (he ▸ List.mem_cons_self _ _)
    have hstep : opCoreState browserEnv op CoreState.failed = CoreState.failed := by
      cases op with
      | initOp => exact absurd rfl hop
      | setItemOp => rfl
      | getItemOp b => cases b <;> rfl
      | removeItemOp => rfl
      | clearOp => rfl
      | keysOp => rfl
    have hrest : PublicOp.initOp ∉ rest := fun hm => h (List.mem_cons_of_mem _ hm)
    unfold runOps
    rw [List.foldl_cons, hstep]
    exact ih hrest

/-- Witness for the amended C8: the five request-issuing operations in
sequence keep `failed`, while `init` escapes it. -/
theorem c8_witness :
    runOps true [PublicOp.setItemOp, PublicOp.getItemOp false, PublicOp.getItemOp true,
                 PublicOp.removeItemOp, PublicOp.clearOp, PublicOp.keysOp]
      CoreState.failed = CoreState.failed ∧
    opCoreState true PublicOp.initOp CoreState.failed = CoreState.initializing :=
  c8_failed_absorbing_except_init
    [PublicOp.setItemOp, PublicOp.getItemOp false, PublicOp.getItemOp true,
     PublicOp.removeItemOp, PublicOp.clearOp, PublicOp.keysOp] true (by decide)

/-- C10. `getItem(key)`: a key present in the local cache resolves with
the cached value issuing no request and leaving cache and id counter
alone; a key not in the cache issues exactly one `getItem` request with
the next correlation id; and when that request resolves the returned
value — the literal `null` included — is stored in the cache. -/
theorem c10_getitem_cache (cache : Cache) (requestIdCounter : Nat) (key : String) :
    (∀ v, cacheGet cache key = some v →
       getItemStart cache requestIdCounter key = (.cachedHit v, cache, requestIdCounter)) ∧
    (cacheGet cache key = none →
       getItemStart cache requestIdCounter key =
         (.requested { action := .getItemAct, key := some key, value := none, options := none,
                       requestId := requestIdCounter }, cache, requestIdCounter + 1)) ∧
    (∀ v, cacheGet (getItemOnResolve cache key v) key = some v) := by
  refine ⟨?_, ?_, ?_⟩
  · intro v hv
    have hhas : cacheHas cache key = true := by
      unfold cacheHas
      unfold cacheGet at hv
      cases hfind : cache.find? (fun p => p.1 == key) with
      | none => rw [hfind] at hv; simp at hv
      | some p => rfl
    unfold getItemStart
    rw [if_pos hhas, hv]
    rfl
  · intro hnone
    have hhas : cacheHas cache key = false := by
      unfold cacheHas
      unfold cacheGet at hnone
      cases hfind : cache.find? (fun p => p.1 == key) with
      | none => rfl
      | some p => rw [hfind] at hnone; simp at hnone
    unfold getItemStart
    rw [hhas]
    rfl
  · intro v
    exact cacheGet_cacheSet_self cache key v

/-- Witness for C10: a hit on `"a"` resolves from cache with no new id,
a miss on `"b"` issues request 5 and bumps the counter, and a resolved
`null` is cached. -/
theorem c10_witness :
    getItemStart [("a", Val.num 1)] 5 "a" = (.cachedHit (Val.num 1), [("a", Val.num 1)], 5) ∧
    getItemStart ([] : Cache) 5 "b" =
      (.requested { action := .getItemAct, key := some "b", value := none, options := none,
                    requestId := 5 }, [], 6) ∧
    cacheGet (getItemOnResolve ([] : Cache) "b" Val.null) "b" = some Val.null :=
  ⟨(c10_getitem_cache [("a", Val.num 1)] 5 "a").1 (Val.num 1) rfl,
   (c10_getitem_cache [] 5 "b").2.1 rfl,
   (c10_getitem_cache [] 5 "b").2.2 Val.null⟩

end GLS
